import Mathlib

/-
Verification of the Lox tree-walking interpreter core (src/lox/ast.py and
src/lox/runtime.py) by a shallow embedding.

Modelling conventions:
* Python floats are modelled by `Int`: every numeric value appearing in the
  properties under verification is integral, and no property depends on
  non-integral arithmetic.  `str(x)` of an integral float `x` is
  `toString n ++ ".0"` and the Lox display form strips the `".0"` suffix.
* Python object identity matters only for instances (they are mutable);
  instances live in a heap (`St.insts`) and an instance value is its heap id.
  Environments (`Ctx` in the sources) are likewise heap frames (`St.frames`)
  since `assign` mutates frames shared with closures.
* Exceptions are modelled by an error sum `Err` mirroring the distinct Python
  exception classes the sources raise and catch: `LoxError`, `LoxReturn`,
  `NameError`, `TypeError`, `AttributeError`, `KeyError`.
* Evaluation is fuel-indexed (`Nat`); fuel exhaustion is the model artifact
  `Err.fuel` (the Python program would simply keep running).
-/

namespace LoxSpec

/-- Literal payloads: `ast.py` restricts `Literal.value` to
`bool | str | float | None`. -/
inductive Lit where
  | nil
  | bool (b : Bool)
  | num (n : Int)
  | str (s : String)
deriving DecidableEq, Repr

/-- The two unary operator callables wired by the parser: `runtime.neg`
and `runtime.not_`. -/
inductive UnOp where
  | neg
  | notOp
deriving DecidableEq, Repr

/-- The binary operator callables from `runtime.py` that the parser wires
into `BinOp.op`. -/
inductive BinKind where
  | add | sub | mul | div | eqOp | neOp | lt | le | gt | ge
deriving DecidableEq, Repr

mutual

/-- Expressions of `ast.py`. -/
inductive Expr where
  | lit (v : Lit)
  | var (name : String)
  | binop (left right : Expr) (op : BinKind)
  | unary (operand : Expr) (op : UnOp)
  | andE (left right : Expr)
  | orE (left right : Expr)
  | call (callee : Expr) (params : List Expr)
  | thisE
  | superE (name : String)
  | assign (name : String) (value : Expr)
  | getattr (obj : Expr) (name : String)
  | setattr (obj : Expr) (name : String) (value : Expr)

/-- Statements of `ast.py`.  A `Function`'s body is the statement list of its
`Block`; `Class.base` is the name held by the base `Var` node. -/
inductive Stmt where
  | exprStmt (e : Expr)
  | printS (e : Expr)
  | ret (value : Option Expr)
  | varDef (name : String) (initializer : Expr)
  | ifS (cond : Expr) (thenB elseB : Stmt)
  | whileS (cond : Expr) (body : Stmt)
  | block (stmts : List Stmt)
  | fund (name : String) (params : List String) (body : List Stmt)
  | classd (name : String) (methods : List FunDecl) (base : Option String)

/-- A `Function` declaration appearing in a `Class.methods` list. -/
inductive FunDecl where
  | mk (name : String) (params : List String) (body : List Stmt)

end

/-- Accessors for `FunDecl`. -/
def FunDecl.fname : FunDecl → String
  | .mk n _ _ => n

def FunDecl.fparams : FunDecl → List String
  | .mk _ p _ => p

def FunDecl.fbody : FunDecl → List Stmt
  | .mk _ _ b => b

/-- `Program` of `ast.py`. -/
structure Program where
  stmts : List Stmt

/-- `LoxFunction` (and `LoxInitFunction`) of `runtime.py`.  `ctx` is the id of
the captured environment frame.  `initInstance = some i` marks a
`LoxInitFunction` bound to instance `i`; `none` is a plain `LoxFunction`. -/
structure FnV where
  name : String
  params : List String
  body : List Stmt
  ctx : Nat
  initInstance : Option Nat

/-- `LoxClass` of `runtime.py`: a name, a method dictionary and an optional
base class. -/
inductive ClassV where
  | mk (name : String) (methods : List (String × FnV)) (base : Option ClassV)

def ClassV.cname : ClassV → String
  | .mk n _ _ => n

def ClassV.cmethods : ClassV → List (String × FnV)
  | .mk _ m _ => m

def ClassV.cbase : ClassV → Option ClassV
  | .mk _ _ b => b

/-- Runtime values.  `inst i` is the instance with heap id `i`; `host` is an
opaque Python attribute object reached only through host-level attribute
access (a bound `str` method, the `fields` dict, ...). -/
inductive Value where
  | nil
  | bool (b : Bool)
  | num (n : Int)
  | str (s : String)
  | fn (f : FnV)
  | cls (c : ClassV)
  | inst (id : Nat)
  | host

/-- The heap record of a `LoxInstance`: its class and its mutable field map. -/
structure InstData where
  klass : ClassV
  fields : List (String × Value)

/-- One environment frame: a name→value mapping plus the parent link.
Modelled from the spec: `ctx.py` is not among the sources; §3 describes the
environment as a singly-linked chain of frames. -/
structure Frame where
  vars : List (String × Value)
  parent : Option Nat

/-- Mutable interpreter state: the frame heap, the instance heap and the
lines printed so far. -/
structure St where
  frames : List Frame
  insts : List InstData
  out : List String

/-- Initial state: one empty global frame. -/
def initSt : St := ⟨[⟨[], none⟩], [], []⟩

/-- Association-list lookup (Python `dict` read). -/
def lookupA (l : List (String × Value)) (k : String) : Option Value :=
  match l with
  | [] => none
  | (k', v) :: rest => if k' == k then some v else lookupA rest k

/-- Association-list update with Python `dict` semantics: replace in place,
else append. -/
def setA (l : List (String × Value)) (k : String) (v : Value) :
    List (String × Value) :=
  match l with
  | [] => [(k, v)]
  | (k', v') :: rest =>
      if k' == k then (k, v) :: rest else (k', v') :: setA rest k v

def lookupM (l : List (String × FnV)) (k : String) : Option FnV :=
  match l with
  | [] => none
  | (k', v) :: rest => if k' == k then some v else lookupM rest k

def setM (l : List (String × FnV)) (k : String) (v : FnV) :
    List (String × FnV) :=
  match l with
  | [] => [(k, v)]
  | (k', v') :: rest =>
      if k' == k then (k, v) :: rest else (k', v') :: setM rest k v

/-- Modelled from the spec: `ctx.py` is missing from the sources; §3 says
`lookup(name)` walks innermost→outermost, failing if unbound.  Parent links
always point to earlier-allocated frames, so the chain length is bounded by
the frame count. -/
def ctxGetGo (st : St) (name : String) : Nat → Nat → Option Value
  | 0, _ => none
  | f + 1, fid =>
      match st.frames.get? fid with
      | none => none
      | some fr =>
          match lookupA fr.vars name with
          | some v => some v
          | none =>
              match fr.parent with
              | some p => ctxGetGo st name f p
              | none => none

def ctxGet (st : St) (fid : Nat) (name : String) : Option Value :=
  ctxGetGo st name (st.frames.length + 1) fid

/-- Replace frame `fid` in the heap. -/
def updateFrame (st : St) (fid : Nat) (fr : Frame) : St :=
  { st with frames := st.frames.set fid fr }

/-- Modelled from the spec: `assign(name, value)` walks innermost→outermost,
updating the first frame that defines `name`, failing (KeyError) if none
does. -/
def ctxAssignGo (st : St) (name : String) (v : Value) : Nat → Nat → Option St
  | 0, _ => none
  | f + 1, fid =>
      match st.frames.get? fid with
      | none => none
      | some fr =>
          match lookupA fr.vars name with
          | some _ => some (updateFrame st fid { fr with vars := setA fr.vars name v })
          | none =>
              match fr.parent with
              | some p => ctxAssignGo st name v f p
              | none => none

def ctxAssign (st : St) (fid : Nat) (name : String) (v : Value) : Option St :=
  ctxAssignGo st name v (st.frames.length + 1) fid

/-- Modelled from the spec: `var_def` defines in the current frame, possibly
shadowing enclosing bindings. -/
def ctxVarDef (st : St) (fid : Nat) (name : String) (v : Value) : St :=
  match st.frames.get? fid with
  | none => st
  | some fr => updateFrame st fid { fr with vars := setA fr.vars name v }

/-- Modelled from the spec: `push(bindings)` produces a new child frame
initialized with the given bindings, without mutating the parent. -/
def ctxPush (st : St) (fid : Nat) (bindings : List (String × Value)) :
    St × Nat :=
  ({ st with frames := st.frames ++ [⟨bindings, some fid⟩] }, st.frames.length)

/-- Value of a `Literal` node (`Literal.eval` returns it verbatim). -/
def litV : Lit → Value
  | .nil => .nil
  | .bool b => .bool b
  | .num n => .num n
  | .str s => .str s

/-- `runtime.truthy`: only `nil` and `false` are falsey. -/
def truthy : Value → Bool
  | .nil => false
  | .bool false => false
  | _ => true

/-- Python `str()` of a runtime value, as used in f-string error messages
(`str(None) = "None"`, `str(42.0) = "42.0"`, ...). -/
def pyStr (st : St) : Value → String
  | .nil => "None"
  | .bool true => "True"
  | .bool false => "False"
  | .num n => toString n ++ ".0"
  | .str s => s
  | .fn f => if f.name == "" then "<fn>" else "<fn " ++ f.name ++ ">"
  | .cls c => c.cname
  | .inst i =>
      match st.insts.get? i with
      | some d => d.klass.cname ++ " instance"
      | none => "instance"
  | .host => "<host attribute>"

/-- `runtime.show` (named `showVal` here because `show` is reserved in Lean):
`nil`/`true`/`false` display literally; a float displays as
`str(x).removesuffix(".0")`, which for the integral floats of this model is
just the integer part; everything else falls through to `str`. -/
def showVal (st : St) : Value → String
  | .nil => "nil"
  | .bool true => "true"
  | .bool false => "false"
  | .num n => toString n
  | v => pyStr st v

/-- Python attribute-name check for the dataclass internals: dunder names. -/
def isDunder (s : String) : Bool := s.toList.take 2 == ['_', '_']

-- Python `==` on AST nodes (dataclass field-wise equality; `node.py`'s `Node`
-- base is assumed not to override `__eq__`).  Literal payloads compare with
-- Python `==`, which identifies `True`/`1.0` and `False`/`0.0`.

/-- Python `==` on `Literal` payloads. -/
def litEqPy : Lit → Lit → Bool
  | .nil, .nil => true
  | .bool x, .bool y => x == y
  | .bool x, .num y => (if x then (1 : Int) else 0) == y
  | .num x, .bool y => x == (if y then (1 : Int) else 0)
  | .num x, .num y => x == y
  | .str x, .str y => x == y
  | _, _ => false

mutual

/-- Python `==` on expression nodes (dataclass equality). -/
def exprEqPy : Expr → Expr → Bool
  | .lit a, .lit b => litEqPy a b
  | .var a, .var b => a == b
  | .binop l1 r1 o1, .binop l2 r2 o2 => exprEqPy l1 l2 && exprEqPy r1 r2 && (o1 == o2)
  | .unary a1 o1, .unary a2 o2 => exprEqPy a1 a2 && (o1 == o2)
  | .andE l1 r1, .andE l2 r2 => exprEqPy l1 l2 && exprEqPy r1 r2
  | .orE l1 r1, .orE l2 r2 => exprEqPy l1 l2 && exprEqPy r1 r2
  | .call c1 p1, .call c2 p2 => exprEqPy c1 c2 && exprsEqPy p1 p2
  | .thisE, .thisE => true
  | .superE a, .superE b => a == b
  | .assign n1 v1, .assign n2 v2 => (n1 == n2) && exprEqPy v1 v2
  | .getattr o1 n1, .getattr o2 n2 => exprEqPy o1 o2 && (n1 == n2)
  | .setattr o1 n1 v1, .setattr o2 n2 v2 =>
      exprEqPy o1 o2 && (n1 == n2) && exprEqPy v1 v2
  | _, _ => false

def exprsEqPy : List Expr → List Expr → Bool
  | [], [] => true
  | a :: as, b :: bs => exprEqPy a b && exprsEqPy as bs
  | _, _ => false

def optExprEqPy : Option Expr → Option Expr → Bool
  | none, none => true
  | some a, some b => exprEqPy a b
  | _, _ => false

/-- Python `==` on statement nodes (dataclass equality). -/
def stmtEqPy : Stmt → Stmt → Bool
  | .exprStmt a, .exprStmt b => exprEqPy a b
  | .printS a, .printS b => exprEqPy a b
  | .ret a, .ret b => optExprEqPy a b
  | .varDef n1 i1, .varDef n2 i2 => (n1 == n2) && exprEqPy i1 i2
  | .ifS c1 t1 e1, .ifS c2 t2 e2 => exprEqPy c1 c2 && stmtEqPy t1 t2 && stmtEqPy e1 e2
  | .whileS c1 b1, .whileS c2 b2 => exprEqPy c1 c2 && stmtEqPy b1 b2
  | .block s1, .block s2 => stmtsEqPy s1 s2
  | .fund n1 p1 b1, .fund n2 p2 b2 => (n1 == n2) && (p1 == p2) && stmtsEqPy b1 b2
  | .classd n1 m1 b1, .classd n2 m2 b2 =>
      (n1 == n2) && funDeclsEqPy m1 m2 && (b1 == b2)
  | _, _ => false

def stmtsEqPy : List Stmt → List Stmt → Bool
  | [], [] => true
  | a :: as, b :: bs => stmtEqPy a b && stmtsEqPy as bs
  | _, _ => false

def funDeclEqPy : FunDecl → FunDecl → Bool
  | .mk n1 p1 b1, .mk n2 p2 b2 => (n1 == n2) && (p1 == p2) && stmtsEqPy b1 b2

def funDeclsEqPy : List FunDecl → List FunDecl → Bool
  | [], [] => true
  | a :: as, b :: bs => funDeclEqPy a b && funDeclsEqPy as bs
  | _, _ => false

end

/-- Python `==` on function objects (`LoxFunction`/`LoxInitFunction` are
dataclasses, so `==` compares `(name, params, body, ctx[, instance])`
field-wise; objects of the two distinct classes are never equal).
The captured `Ctx` is compared by identity (frame id): `ctx.py` is missing
from the sources and the host default for a plain class is identity.
The `instance` field of two equal init-functions is compared by id: two
separately bound methods always differ in `ctx` anyway. -/
def fnEqPy (f1 f2 : FnV) : Bool :=
  (f1.name == f2.name) && (f1.params == f2.params) && stmtsEqPy f1.body f2.body
    && (f1.ctx == f2.ctx) && (f1.initInstance == f2.initInstance)

/-- Python `dict ==` on the methods dictionary: same size, and every entry of
the first found equal in the second. -/
def methodsSubEq (l1 l2 : List (String × FnV)) : Bool :=
  l1.all fun p =>
    match lookupM l2 p.1 with
    | some g => fnEqPy p.2 g
    | none => false

/-- Python `==` on `LoxClass` values (dataclass equality over
`(name, methods, base)`). -/
def clsEqPy : ClassV → ClassV → Bool
  | .mk n1 m1 b1, .mk n2 m2 b2 =>
      (n1 == n2) && (m1.length == m2.length) && methodsSubEq m1 m2 &&
      (match b1, b2 with
       | none, none => true
       | some c1, some c2 => clsEqPy c1 c2
       | _, _ => false)

mutual

/-- Python `==` on runtime values (used inside container comparisons without
the Lox type guard, so `True == 1.0` here).  Instances compare by dataclass
equality over `(klass, fields)`, with the CPython identity shortcut for the
same object; the fuel models CPython's recursion limit (`none` is
`RecursionError`). -/
def pyEqV : Nat → St → Value → Value → Option Bool
  | 0, _, _, _ => none
  | f + 1, st, a, b =>
      match a, b with
      | .nil, .nil => some true
      | .bool x, .bool y => some (x == y)
      | .bool x, .num y => some ((if x then (1 : Int) else 0) == y)
      | .num x, .bool y => some (x == (if y then (1 : Int) else 0))
      | .num x, .num y => some (x == y)
      | .str x, .str y => some (x == y)
      | .fn g1, .fn g2 => some (fnEqPy g1 g2)
      | .cls c1, .cls c2 => some (clsEqPy c1 c2)
      | .inst i, .inst j =>
          if i == j then some true
          else
            match st.insts.get? i, st.insts.get? j with
            | some d1, some d2 =>
                if clsEqPy d1.klass d2.klass && (d1.fields.length == d2.fields.length)
                then pyEqFields f st d1.fields d2.fields
                else some false
            | _, _ => some false
      | _, _ => some false

/-- Python `dict ==` on field maps, values compared with `==`. -/
def pyEqFields : Nat → St → List (String × Value) → List (String × Value) →
    Option Bool
  | 0, _, _, _ => none
  | f + 1, st, l1, l2 =>
      match l1 with
      | [] => some true
      | (k, v) :: rest =>
          match lookupA l2 k with
          | none => some false
          | some w =>
              match pyEqV f st v w with
              | some true => pyEqFields f st rest l2
              | some false => some false
              | none => none

end

/-- Python `type(a) is type(b)`.  `LoxFunction` and `LoxInitFunction` are
distinct types; opaque host objects are modelled as never type-equal. -/
def sameType : Value → Value → Bool
  | .nil, .nil => true
  | .bool _, .bool _ => true
  | .num _, .num _ => true
  | .str _, .str _ => true
  | .fn f1, .fn f2 => f1.initInstance.isSome == f2.initInstance.isSome
  | .cls _, .cls _ => true
  | .inst _, .inst _ => true
  | _, _ => false

/-- The value kinds of the specification's data model. -/
inductive Kind where
  | nilK | boolK | numK | strK | funK | clsK | instK | hostK
deriving DecidableEq, Repr

def kindOf : Value → Kind
  | .nil => .nilK
  | .bool _ => .boolK
  | .num _ => .numK
  | .str _ => .strK
  | .fn _ => .funK
  | .cls _ => .clsK
  | .inst _ => .instK
  | .host => .hostK

/-- `runtime.eq`: different Python types are never equal, otherwise Python
`==` decides.  The fuel constant models CPython's default recursion limit. -/
def loxEq (st : St) (a b : Value) : Option Bool :=
  if sameType a b then pyEqV 1000 st a b else some false

/-- `runtime.ne`. -/
def loxNe (st : St) (a b : Value) : Option Bool :=
  (loxEq st a b).map (fun r => !r)

/-- Errors the operator functions can raise: `LoxError` or (model)
`RecursionError` from equality on cyclic structures. -/
inductive OpErr where
  | lox (msg : String)
  | recE

/-- `neg`, from `runtime.py`. -/
def negV : Value → Except OpErr Value
  | .num n => .ok (.num (-n))
  | _ => .error (.lox "Operand must be a number.")

/-- `not_`, from `runtime.py`. -/
def notV (v : Value) : Except OpErr Value := .ok (.bool (!truthy v))

/-- The binary operator functions of `runtime.py` (`add`, `sub`, `mul`,
`truediv`, `eq`, `ne`, `lt`, `le`, `gt`, `ge`), dispatched by the op code the
parser wired into `BinOp.op`.  `_check_numbers` raises
`"Operands must be numbers."`; division by zero raises
`"Division by zero."`.  `/` is integer division here: the model's numbers
are integral and no verified property depends on a quotient's value. -/
def applyBin (st : St) (op : BinKind) (a b : Value) : Except OpErr Value :=
  match op with
  | .add =>
      match a, b with
      | .num x, .num y => .ok (.num (x + y))
      | .str x, .str y => .ok (.str (x ++ y))
      | _, _ => .error (.lox "Operands must be two numbers or two strings.")
  | .sub =>
      match a, b with
      | .num x, .num y => .ok (.num (x - y))
      | _, _ => .error (.lox "Operands must be numbers.")
  | .mul =>
      match a, b with
      | .num x, .num y => .ok (.num (x * y))
      | _, _ => .error (.lox "Operands must be numbers.")
  | .div =>
      match a, b with
      | .num x, .num y =>
          if y == 0 then .error (.lox "Division by zero.") else .ok (.num (x / y))
      | _, _ => .error (.lox "Operands must be numbers.")
  | .eqOp =>
      match loxEq st a b with
      | some r => .ok (.bool r)
      | none => .error .recE
  | .neOp =>
      match loxNe st a b with
      | some r => .ok (.bool r)
      | none => .error .recE
  | .lt =>
      match a, b with
      | .num x, .num y => .ok (.bool (decide (x < y)))
      | _, _ => .error (.lox "Operands must be numbers.")
  | .le =>
      match a, b with
      | .num x, .num y => .ok (.bool (decide (x ≤ y)))
      | _, _ => .error (.lox "Operands must be numbers.")
  | .gt =>
      match a, b with
      | .num x, .num y => .ok (.bool (decide (y < x)))
      | _, _ => .error (.lox "Operands must be numbers.")
  | .ge =>
      match a, b with
      | .num x, .num y => .ok (.bool (decide (y ≤ x)))
      | _, _ => .error (.lox "Operands must be numbers.")

/-- `LoxClass.get_method`: the current class's dict, then the base chain;
`none` models the `LoxError` it raises when unresolved. -/
def getMethod : ClassV → String → Option FnV
  | .mk _ ms b, nm =>
      match lookupM ms nm with
      | some m => some m
      | none =>
          match b with
          | some bc => getMethod bc nm
          | none => none

/-- `LoxFunction.bind`: a fresh `LoxFunction` sharing name/params/body whose
context is the captured context pushed with `{this: obj}`.  Note the result
is always a plain `LoxFunction`. -/
def bindFn (st : St) (f : FnV) (v : Value) : St × FnV :=
  let p := ctxPush st f.ctx [("this", v)]
  (p.1, ⟨f.name, f.params, f.body, p.2, none⟩)

/-- `LoxInstance.set_field`: `fields[name] = value`. -/
def setInstField (st : St) (i : Nat) (nm : String) (v : Value) : St :=
  match st.insts.get? i with
  | none => st
  | some d =>
      { st with insts := st.insts.set i { d with fields := setA d.fields nm v } }

/-- Python-level attribute lookup on a `LoxInstance` object, consulted by
`getattr` before `__getattr__` fires: the dataclass fields `klass` and
`fields`, the methods `get_field` and `set_field`, and the dunder attributes
of the class shadow Lox fields and methods.  Dunder names are
over-approximated as host attributes (not every dunder exists on the object);
no verified property instantiates a dunder name. -/
def pythonInstanceAttr (d : InstData) (nm : String) : Option Value :=
  if nm == "klass" then some (.cls d.klass)
  else if nm == "fields" || nm == "get_field" || nm == "set_field" || isDunder nm
  then some .host
  else none

/-- Python `getattr` on a `LoxInstance`: first the object's Python
attributes, then `LoxInstance.__getattr__` — the Lox field map, then
`get_method` on the class (wrapping `init` in a `LoxInitFunction` bound to
the receiver, binding other methods to it), else
`LoxError "Campo '...' não existe"`. -/
def instanceGetattr (st : St) (i : Nat) (nm : String) : St × Except OpErr Value :=
  match st.insts.get? i with
  | none => (st, .error (.lox ("Campo '" ++ nm ++ "' não existe")))
  | some d =>
      match pythonInstanceAttr d nm with
      | some v => (st, .ok v)
      | none =>
          match lookupA d.fields nm with
          | some v => (st, .ok v)
          | none =>
              match getMethod d.klass nm with
              | some m =>
                  let p := bindFn st m (.inst i)
                  if nm == "init" then
                    (p.1, .ok (.fn { p.2 with initInstance := some i }))
                  else (p.1, .ok (.fn p.2))
              | none => (st, .error (.lox ("Campo '" ++ nm ++ "' não existe")))

/-- CPython public (non-dunder) attributes of `float` values. -/
def floatAttrs : List String :=
  ["as_integer_ratio", "conjugate", "fromhex", "hex", "imag", "is_integer",
   "real"]

/-- CPython public (non-dunder) attributes of `bool` values (inherited from
`int`). -/
def boolAttrs : List String :=
  ["as_integer_ratio", "bit_count", "bit_length", "conjugate", "denominator",
   "from_bytes", "imag", "is_integer", "numerator", "real", "to_bytes"]

/-- CPython public (non-dunder) attributes of `str` values. -/
def strAttrs : List String :=
  ["capitalize", "casefold", "center", "count", "encode", "endswith",
   "expandtabs", "find", "format", "format_map", "index", "isalnum",
   "isalpha", "isascii", "isdecimal", "isdigit", "isidentifier", "islower",
   "isnumeric", "isprintable", "isspace", "istitle", "isupper", "join",
   "ljust", "lower", "lstrip", "maketrans", "partition", "removeprefix",
   "removesuffix", "replace", "rfind", "rindex", "rjust", "rpartition",
   "rsplit", "rstrip", "split", "splitlines", "startswith", "strip",
   "swapcase", "title", "translate", "upper", "zfill"]

/-- Python `getattr` on a `LoxFunction`/`LoxInitFunction` object: the
dataclass fields and methods are real attributes — `name` yields the Lox
string, `instance` of an init-function yields the bound instance, the rest
are opaque host objects. -/
def pyFnAttr (g : FnV) (nm : String) : Option Value :=
  if nm == "name" then some (.str g.name)
  else if nm == "params" || nm == "body" || nm == "ctx" || nm == "bind"
       || nm == "call" || isDunder nm then some .host
  else
    match g.initInstance with
    | some i => if nm == "instance" then some (.inst i) else none
    | none => none

/-- Whether Python `getattr` succeeds on a primitive host value. -/
def pyPrimAttrExists (v : Value) (nm : String) : Bool :=
  match v with
  | .num _ => floatAttrs.contains nm || isDunder nm
  | .bool _ => boolAttrs.contains nm || isDunder nm
  | .str _ => strAttrs.contains nm || isDunder nm
  | .nil => isDunder nm
  | _ => false

/-- The CPython `AttributeError` message of a failed `setattr` on a value
with no `__dict__`. -/
def pyTypeName : Value → String
  | .nil => "NoneType"
  | .bool _ => "bool"
  | .num _ => "float"
  | .str _ => "str"
  | .fn _ => "LoxFunction"
  | .cls _ => "LoxClass"
  | .inst _ => "LoxInstance"
  | .host => "object"

/-- The distinct Python exception classes raised and caught by the sources:
`LoxError`, `LoxReturn`, `NameError`, `TypeError`, `AttributeError`,
`KeyError`; `recE` is `RecursionError` and `fuel` the out-of-fuel model
artifact. -/
inductive Err where
  | lox (msg : String)
  | ret (v : Value)
  | nameE (msg : String)
  | typeE (msg : String)
  | attrE (msg : String)
  | keyE (msg : String)
  | recE
  | fuel

def opToErr : OpErr → Err
  | .lox m => .lox m
  | .recE => .recE

def liftOp : Except OpErr Value → Except Err Value
  | .ok v => .ok v
  | .error e => .error (opToErr e)

/-- `dict(zip(param_names, args))` of `LoxFunction.call`. -/
def zipBind (ps : List String) (vs : List Value) : List (String × Value) :=
  (ps.zip vs).foldl (fun acc p => setA acc p.1 p.2) []

mutual

/-- `eval` of the expression nodes of `ast.py`, fuel-indexed. -/
def evalExpr (fuel : Nat) (e : Expr) (ctx : Nat) (st : St) :
    St × Except Err Value :=
  match fuel with
  | 0 => (st, .error .fuel)
  | f + 1 =>
      match e with
      | .lit v => (st, .ok (litV v))
      | .var nm =>
          match ctxGet st ctx nm with
          | some v => (st, .ok v)
          | none => (st, .error (.nameE ("variável " ++ nm ++ " não existe!")))
      | .binop l r op =>
          match evalExpr f l ctx st with
          | (st1, .ok lv) =>
              match evalExpr f r ctx st1 with
              | (st2, .ok rv) => (st2, liftOp (applyBin st2 op lv rv))
              | (st2, .error er) => (st2, .error er)
          | (st1, .error er) => (st1, .error er)
      | .unary o op =>
          match evalExpr f o ctx st with
          | (st1, .ok v) =>
              match op with
              | .neg => (st1, liftOp (negV v))
              | .notOp => (st1, liftOp (notV v))
          | (st1, .error er) => (st1, .error er)
      | .andE l r =>
          match evalExpr f l ctx st with
          | (st1, .ok (.bool false)) => (st1, .ok (.bool false))
          | (st1, .ok .nil) => (st1, .ok .nil)
          | (st1, .ok _) => evalExpr f r ctx st1
          | (st1, .error er) => (st1, .error er)
      | .orE l r =>
          match evalExpr f l ctx st with
          | (st1, .ok v) =>
              match v with
              | .bool false => evalExpr f r ctx st1
              | .nil => evalExpr f r ctx st1
              | .num n =>
                  -- dead special case of `Or.eval`: 0 is returned either way
                  if n == 0 then (st1, .ok (.num n)) else (st1, .ok (.num n))
              | .str s =>
                  -- dead special case of `Or.eval`: "" is returned either way
                  if s == "" then (st1, .ok (.str s)) else (st1, .ok (.str s))
              | w => (st1, .ok w)
          | (st1, .error er) => (st1, .error er)
      | .call callee params =>
          match evalExpr f callee ctx st with
          | (st1, .ok fv) =>
              match evalArgs f params ctx st1 with
              | (st2, .ok args) =>
                  match fv with
                  | .fn g => callFunction f g args st2
                  | .cls c => classCall f c args st2
                  | _ =>
                      (st2, .error (.typeE
                        ("'" ++ pyStr st2 fv ++ "' não é uma função!")))
              | (st2, .error er) => (st2, .error er)
          | (st1, .error er) => (st1, .error er)
      | .thisE =>
          match ctxGet st ctx "this" with
          | some v => (st, .ok v)
          | none => (st, .error (.nameE "variável this não existe!"))
      | .superE nm =>
          match ctxGet st ctx "this" with
          | none => (st, .error (.nameE "variável this não existe!"))
          | some iv =>
              match ctxGet st ctx "super" with
              | none => (st, .error (.nameE "variável super não existe!"))
              | some sv =>
                  match sv with
                  | .cls sc =>
                      match getMethod sc nm with
                      | none =>
                          (st, .error (.lox ("Método '" ++ nm ++
                            "' não encontrado na classe '" ++ sc.cname ++ "'")))
                      | some m =>
                          let p := bindFn st m iv
                          (p.1, .ok (.fn p.2))
                  -- a non-class bound to `super` has no `get_method`
                  | _ => (st, .error (.attrE
                      ("O objeto " ++ pyStr st sv ++
                       " não possui o atributo 'get_method'")))
      | .assign nm vE =>
          match evalExpr f vE ctx st with
          | (st1, .ok rv) =>
              match ctxAssign st1 ctx nm rv with
              | some st2 => (st2, .ok rv)
              | none => (st1, .error (.keyE nm))
          | (st1, .error er) => (st1, .error er)
      | .getattr o nm =>
          match evalExpr f o ctx st with
          | (st1, .ok ov) =>
              match ov with
              | .cls c =>
                  match getMethod c nm with
                  | some m => (st1, .ok (.fn m))
                  | none =>
                      (st1, .error (.attrE ("O objeto " ++ pyStr st1 ov ++
                        " não possui o atributo '" ++ nm ++ "'")))
              | .inst i =>
                  match instanceGetattr st1 i nm with
                  | (st2, .ok v) => (st2, .ok v)
                  | (st2, .error er) => (st2, .error (opToErr er))
              | .fn g =>
                  match pyFnAttr g nm with
                  | some v => (st1, .ok v)
                  | none =>
                      (st1, .error (.attrE ("O objeto " ++ pyStr st1 ov ++
                        " não possui o atributo '" ++ nm ++ "'")))
              | .host =>
                  -- opaque host objects: attribute surface unknown, no
                  -- verified property touches one
                  (st1, .error (.attrE ("O objeto " ++ pyStr st1 ov ++
                    " não possui o atributo '" ++ nm ++ "'")))
              | prim =>
                  if pyPrimAttrExists prim nm then (st1, .ok .host)
                  else
                    (st1, .error (.attrE ("O objeto " ++ pyStr st1 prim ++
                      " não possui o atributo '" ++ nm ++ "'")))
          | (st1, .error er) => (st1, .error er)
      | .setattr o nm vE =>
          match evalExpr f o ctx st with
          | (st1, .ok ov) =>
              match evalExpr f vE ctx st1 with
              | (st2, .ok vv) =>
                  match ov with
                  | .cls _ => (st2, .error (.lox "Apenas instâncias podem ter campos."))
                  | .fn _ => (st2, .error (.lox "Apenas instâncias podem ter campos."))
                  | .inst i => (setInstField st2 i nm vv, .ok vv)
                  | other =>
                      -- Python `setattr` on a value without `__dict__`
                      (st2, .error (.attrE ("'" ++ pyTypeName other ++
                        "' object has no attribute '" ++ nm ++ "'")))
              | (st2, .error er) => (st2, .error er)
          | (st1, .error er) => (st1, .error er)

termination_by structural fuel

/-- The argument list comprehension of `Call.eval`, left to right, aborted by
the first exception. -/
def evalArgs (fuel : Nat) (es : List Expr) (ctx : Nat) (st : St) :
    St × Except Err (List Value) :=
  match fuel with
  | 0 => (st, .error .fuel)
  | f + 1 =>
      match es with
      | [] => (st, .ok [])
      | e :: rest =>
          match evalExpr f e ctx st with
          | (st1, .ok v) =>
              match evalArgs f rest ctx st1 with
              | (st2, .ok vs) => (st2, .ok (v :: vs))
              | (st2, .error er) => (st2, .error er)
          | (st1, .error er) => (st1, .error er)

termination_by structural fuel

/-- `eval` of the statement nodes of `ast.py`. -/
def evalStmt (fuel : Nat) (s : Stmt) (ctx : Nat) (st : St) :
    St × Except Err Unit :=
  match fuel with
  | 0 => (st, .error .fuel)
  | f + 1 =>
      match s with
      | .exprStmt e =>
          match evalExpr f e ctx st with
          | (st1, .ok _) => (st1, .ok ())
          | (st1, .error er) => (st1, .error er)
      | .printS e =>
          match evalExpr f e ctx st with
          | (st1, .ok v) => ({ st1 with out := st1.out ++ [showVal st1 v] }, .ok ())
          | (st1, .error er) => (st1, .error er)
      | .ret ve =>
          match ve with
          | some e =>
              match evalExpr f e ctx st with
              | (st1, .ok v) => (st1, .error (.ret v))
              | (st1, .error er) => (st1, .error er)
          | none => (st, .error (.ret .nil))
      | .varDef nm initE =>
          match evalExpr f initE ctx st with
          | (st1, .ok v) => (ctxVarDef st1 ctx nm v, .ok ())
          | (st1, .error er) => (st1, .error er)
      | .ifS c tB eB =>
          match evalExpr f c ctx st with
          | (st1, .ok (.bool false)) => evalStmt f eB ctx st1
          | (st1, .ok .nil) => evalStmt f eB ctx st1
          | (st1, .ok _) => evalStmt f tB ctx st1
          | (st1, .error er) => (st1, .error er)
      | .whileS c b =>
          match evalExpr f c ctx st with
          | (st1, .ok (.bool false)) => (st1, .ok ())
          | (st1, .ok .nil) => (st1, .ok ())
          | (st1, .ok _) =>
              match evalStmt f b ctx st1 with
              | (st2, .ok _) => evalStmt f (.whileS c b) ctx st2
              | (st2, .error er) => (st2, .error er)
          | (st1, .error er) => (st1, .error er)
      | .block stmts =>
          let p := ctxPush st ctx []
          evalStmts f stmts p.2 p.1
      | .fund nm ps body =>
          (ctxVarDef st ctx nm (.fn ⟨nm, ps, body, ctx, none⟩), .ok ())
      | .classd nm ms base =>
          match base with
          | some bname =>
              match ctxGet st ctx bname with
              | none =>
                  (st, .error (.nameE ("variável " ++ bname ++ " não existe!")))
              | some bv =>
                  match bv with
                  | .cls bc =>
                      let p := ctxPush st ctx [("super", .cls bc)]
                      let methods := ms.foldl
                        (fun acc fd =>
                          setM acc fd.fname ⟨fd.fname, fd.fparams, fd.fbody, p.2, none⟩)
                        []
                      (ctxVarDef p.1 ctx nm (.cls (.mk nm methods (some bc))), .ok ())
                  | _ => (st, .error (.lox ("'" ++ bname ++ "' não é uma classe")))
          | none =>
              let methods := ms.foldl
                (fun acc fd =>
                  setM acc fd.fname ⟨fd.fname, fd.fparams, fd.fbody, ctx, none⟩)
                []
              (ctxVarDef st ctx nm (.cls (.mk nm methods none)), .ok ())

termination_by structural fuel

/-- Sequential statement evaluation (`Program.eval` / `Block.eval` loops). -/
def evalStmts (fuel : Nat) (ss : List Stmt) (ctx : Nat) (st : St) :
    St × Except Err Unit :=
  match fuel with
  | 0 => (st, .error .fuel)
  | f + 1 =>
      match ss with
      | [] => (st, .ok ())
      | s :: rest =>
          match evalStmt f s ctx st with
          | (st1, .ok _) => evalStmts f rest ctx st1
          | (st1, .error er) => (st1, .error er)

termination_by structural fuel

/-- `LoxFunction.call` (plus `LoxInitFunction.__call__` when
`initInstance` is set): arity check, parameter frame pushed onto the
captured context, body `Block` evaluated there, `LoxReturn` caught at this
boundary; an init-function finally returns its instance instead of the call
result.  The `this`/`super` special-binding block of the source is a no-op:
`bind_instance`/`bind_superclass` are never set on these dataclasses, the
`params[0] == "this"` heuristic re-adds the binding `dict(zip(...))` already
made, and `Ctx` (spec §3) has no `superclass` attribute. -/
def callFunction (fuel : Nat) (g : FnV) (args : List Value) (st : St) :
    St × Except Err Value :=
  match fuel with
  | 0 => (st, .error .fuel)
  | f + 1 =>
      if args.length != g.params.length then
        (st, .error (.typeE ("'" ++ g.name ++ "' esperava " ++
          toString g.params.length ++ " argumentos, mas recebeu " ++
          toString args.length ++ ".")))
      else
        let p := ctxPush st g.ctx (zipBind g.params args)
        match evalStmt f (.block g.body) p.2 p.1 with
        | (st2, .ok _) =>
            (st2, match g.initInstance with
                  | some i => .ok (.inst i)
                  | none => .ok .nil)
        | (st2, .error (.ret v)) =>
            (st2, match g.initInstance with
                  | some i => .ok (.inst i)
                  | none => .ok v)
        | (st2, .error er) => (st2, .error er)

termination_by structural fuel

/-- `LoxClass.__call__`: allocate a fresh instance; if `get_method("init")`
resolves, bind it to the instance and call it — the `except LoxError` of the
source also catches a `LoxError` raised by the init body itself, swallowing
it (0 args) or converting it to the arity `TypeError` (>0 args); the
instance is returned whatever the init call returned. -/
def classCall (fuel : Nat) (c : ClassV) (args : List Value) (st : St) :
    St × Except Err Value :=
  match fuel with
  | 0 => (st, .error .fuel)
  | f + 1 =>
      let i := st.insts.length
      let st1 : St := { st with insts := st.insts ++ [⟨c, []⟩] }
      match getMethod c "init" with
      | some m =>
          let p := bindFn st1 m (.inst i)
          match callFunction f p.2 args p.1 with
          | (st3, .ok _) => (st3, .ok (.inst i))
          | (st3, .error (.lox _)) =>
              if args.length > 0 then
                (st3, .error (.typeE ("Esperava 0 argumentos mas recebeu " ++
                  toString args.length)))
              else (st3, .ok (.inst i))
          | (st3, .error er) => (st3, .error er)
      | none =>
          if args.length > 0 then
            (st1, .error (.typeE ("Esperava 0 argumentos mas recebeu " ++
              toString args.length)))
          else (st1, .ok (.inst i))

termination_by structural fuel

end

/-- `Program.eval` in a fresh global environment. -/
def evalProgram (fuel : Nat) (p : Program) : St × Except Err Unit :=
  evalStmts fuel p.stmts 0 initSt

/-- `RESERVED_WORDS` from `ast.py`. -/
def RESERVED_WORDS : List String :=
  ["and", "class", "else", "false", "for", "fun", "if", "nil",
   "or", "print", "return", "super", "this", "true", "var", "while"]

/-- `SemanticError` (message and offending token).  Modelled from the spec:
`errors.py` is not among the sources. -/
structure SErr where
  msg : String
  token : String
deriving DecidableEq, Repr

/-- One entry of the validator's cursor: an enclosing `Function` or `Class`
(with whether that class declares a base).  Modelled from the spec (§4.3):
`node.py`'s `Cursor` is not among the sources; `is_scoped_to` asks for an
enclosing node of the given kind and `class_scope` for the nearest enclosing
`Class`. -/
inductive ScopeKind where
  | function
  | classScope (hasBase : Bool)
deriving DecidableEq, Repr

/-- `cursor.is_scoped_to(Class)`. -/
def cursorHasClass : List ScopeKind → Bool
  | [] => false
  | .classScope _ :: _ => true
  | .function :: rest => cursorHasClass rest

/-- `cursor.is_scoped_to(Function)`. -/
def cursorHasFunction : List ScopeKind → Bool
  | [] => false
  | .function :: _ => true
  | .classScope _ :: rest => cursorHasFunction rest

/-- `cursor.class_scope().node.base is not None`, as an `Option`:
`none` models the `ValueError` when there is no enclosing class. -/
def cursorNearestClassBase : List ScopeKind → Option Bool
  | [] => none
  | .classScope b :: _ => some b
  | .function :: rest => cursorNearestClassBase rest

/-- First reserved parameter name, as scanned by `Function.validate_self`. -/
def firstReservedParam (ps : List String) : Option String :=
  ps.find? (fun p => RESERVED_WORDS.contains p)

def firstDupParamGo (seen : List String) : List String → Option String
  | [] => none
  | p :: rest =>
      if seen.contains p then some p else firstDupParamGo (p :: seen) rest

/-- First duplicated parameter name (`Function.validate_self`, check 1). -/
def firstDupParam (ps : List String) : Option String := firstDupParamGo [] ps

/-- First direct-child `VarDef` of the body shadowing a parameter
(`Function.validate_self`, check 2). -/
def firstShadowingVarDef (params : List String) : List Stmt → Option String
  | [] => none
  | .varDef n _ :: rest =>
      if params.contains n then some n else firstShadowingVarDef params rest
  | _ :: rest => firstShadowingVarDef params rest

/-- First direct-child `VarDef` name already declared in the same block
(`Block.validate_self`). -/
def blockFirstDupGo (seen : List String) : List Stmt → Option String
  | [] => none
  | .varDef n _ :: rest =>
      if seen.contains n then some n else blockFirstDupGo (n :: seen) rest
  | _ :: rest => blockFirstDupGo seen rest

mutual

/-- The validation traversal over expressions.  Modelled from the spec
(§4.3): a single pre-order traversal invoking each node's `validate_self`
(the `validate_self` bodies are those of `ast.py`) with the cursor of
enclosing contexts, descending into children in their natural order. -/
def validateExpr (cur : List ScopeKind) : Expr → Except SErr Unit
  | .lit _ => .ok ()
  | .var _ => .ok ()
  | .binop l r _ =>
      match validateExpr cur l with
      | .ok _ => validateExpr cur r
      | .error er => .error er
  | .unary o _ => validateExpr cur o
  | .andE l r =>
      match validateExpr cur l with
      | .ok _ => validateExpr cur r
      | .error er => .error er
  | .orE l r =>
      match validateExpr cur l with
      | .ok _ => validateExpr cur r
      | .error er => .error er
  | .call c ps =>
      match validateExpr cur c with
      | .ok _ => validateExprs cur ps
      | .error er => .error er
  | .thisE =>
      if cursorHasClass cur then .ok ()
      else .error ⟨"Can't use 'this' outside of a class.", "this"⟩
  | .superE _ =>
      if cursorHasClass cur then
        match cursorNearestClassBase cur with
        | some true => .ok ()
        | some false =>
            .error ⟨"Can't use 'super' in a class with no superclass.", "super"⟩
        | none => .error ⟨"Can't use 'super' outside of a class.", "super"⟩
      else .error ⟨"Can't use 'super' outside of a class.", "super"⟩
  | .assign _ v => validateExpr cur v
  | .getattr o _ => validateExpr cur o
  | .setattr o _ v =>
      match validateExpr cur o with
      | .ok _ => validateExpr cur v
      | .error er => .error er

def validateExprs (cur : List ScopeKind) : List Expr → Except SErr Unit
  | [] => .ok ()
  | e :: rest =>
      match validateExpr cur e with
      | .ok _ => validateExprs cur rest
      | .error er => .error er

def validateOptExpr (cur : List ScopeKind) : Option Expr → Except SErr Unit
  | none => .ok ()
  | some e => validateExpr cur e

/-- The validation traversal over statements. -/
def validateStmt (cur : List ScopeKind) : Stmt → Except SErr Unit
  | .exprStmt e => validateExpr cur e
  | .printS e => validateExpr cur e
  | .ret ve =>
      if cursorHasFunction cur then validateOptExpr cur ve
      else .error ⟨"Can't return from top-level code.", "return"⟩
  | .varDef n i =>
      if RESERVED_WORDS.contains n then
        .error ⟨"Cannot use reserved word '" ++ n ++ "' as a variable name.", n⟩
      else validateExpr cur i
  | .ifS c tB eB =>
      match validateExpr cur c with
      | .ok _ =>
          match validateStmt cur tB with
          | .ok _ => validateStmt cur eB
          | .error er => .error er
      | .error er => .error er
  | .whileS c b =>
      match validateExpr cur c with
      | .ok _ => validateStmt cur b
      | .error er => .error er
  | .block ss =>
      match blockFirstDupGo [] ss with
      | some n =>
          .error ⟨"Variable '" ++ n ++
            "' has already been declared in this block.", n⟩
      | none => validateStmts cur ss
  | .fund _ ps body => validateFunction cur ps body
  | .classd _ ms base => validateMethods (.classScope base.isSome :: cur) ms

/-- `Function.validate_self` (reserved / duplicate / shadowing parameter
checks) followed by the descent into the body `Block` — its own
`validate_self` (duplicate `VarDef` check) and then its statements — inside
the function scope. -/
def validateFunction (cur : List ScopeKind) (ps : List String)
    (body : List Stmt) : Except SErr Unit :=
  match firstReservedParam ps with
  | some p =>
      .error ⟨"Cannot use reserved word '" ++ p ++ "' as a parameter name.", p⟩
  | none =>
      match firstDupParam ps with
      | some p =>
          .error ⟨"Duplicate parameter name '" ++ p ++
            "' in function declaration.", p⟩
      | none =>
          match firstShadowingVarDef ps body with
          | some n =>
              .error ⟨"Variable '" ++ n ++ "' shadows a function parameter.", n⟩
          | none =>
              match blockFirstDupGo [] body with
              | some n =>
                  .error ⟨"Variable '" ++ n ++
                    "' has already been declared in this block.", n⟩
              | none => validateStmts (.function :: cur) body

def validateStmts (cur : List ScopeKind) : List Stmt → Except SErr Unit
  | [] => .ok ()
  | s :: rest =>
      match validateStmt cur s with
      | .ok _ => validateStmts cur rest
      | .error er => .error er

def validateMethods (cur : List ScopeKind) : List FunDecl → Except SErr Unit
  | [] => .ok ()
  | .mk _ ps body :: rest =>
      match validateFunction cur ps body with
      | .ok _ => validateMethods cur rest
      | .error er => .error er

end

/-- Validation of a whole `Program`: every top-level statement, with an empty
cursor. -/
def validateProgram (p : Program) : Except SErr Unit :=
  validateStmts [] p.stmts

-- Concrete material for the claims.

/-- A method-less class `A`. -/
def classA0 : ClassV := .mk "A" [] none

/-- A heap holding two *distinct* freshly-constructed instances of `classA0`
(ids 0 and 1), both with empty field maps — exactly the situation after
`var a = A(); var b = A();`. -/
def twoInstSt : St := ⟨[⟨[], none⟩], [⟨classA0, []⟩, ⟨classA0, []⟩], []⟩

/-- `print 0 or "hi";` -/
def progOrZero : Program := ⟨[.printS (.orE (.lit (.num 0)) (.lit (.str "hi")))]⟩

/-- `print nil or "hi";` -/
def progOrNil : Program := ⟨[.printS (.orE (.lit .nil) (.lit (.str "hi")))]⟩

/-- Class or function values — the receivers `Setattr.eval` rejects with
`LoxError`. -/
def isClsOrFn : Value → Bool
  | .cls _ => true
  | .fn _ => true
  | _ => false

/-- Primitive value kinds (Nil, Bool, Number, Str). -/
def isPrimV : Value → Bool
  | .nil => true
  | .bool _ => true
  | .num _ => true
  | .str _ => true
  | _ => false

/-- Python `getattr` finds no attribute: the receiver is a primitive or a
function value and the name resolves neither as a host attribute nor (for
functions) as a dataclass field. -/
def noHostAttr (v : Value) (nm : String) : Bool :=
  match v with
  | .fn g => (pyFnAttr g nm).isNone
  | .nil => !pyPrimAttrExists v nm
  | .bool _ => !pyPrimAttrExists v nm
  | .num _ => !pyPrimAttrExists v nm
  | .str _ => !pyPrimAttrExists v nm
  | _ => false

/-- Values `Call.eval` refuses to call (`callable(func)` is false). -/
def notCallable : Value → Bool
  | .fn _ => false
  | .cls _ => false
  | _ => true

/-- A state whose global frame binds `a` to instance 0 of `classA0`. -/
def stW : St := ⟨[⟨[("a", .inst 0)], none⟩], [⟨classA0, []⟩], []⟩

/-- `var x = 1; x.y = 2;` -/
def progSetattrNum : Program :=
  ⟨[.varDef "x" (.lit (.num 1)),
    .exprStmt (.setattr (.var "x") "y" (.lit (.num 2)))]⟩

/-- `fun f() {} print f.name;` -/
def progFnName : Program :=
  ⟨[.fund "f" [] [], .printS (.getattr (.var "f") "name")]⟩

/-- `fun g() { print "side"; } 3(g());` -/
def progCallNonFn : Program :=
  ⟨[.fund "g" [] [.printS (.lit (.str "side"))],
    .exprStmt (.call (.lit (.num 3)) [.call (.var "g") []])]⟩

/-- `class P { init(x) { this.x = x; return 99; } }
var p = P(1); print p.x; print p.init(2).x;` — the init body ends in a
`return` whose value is ignored both by the constructor call and by the
direct `init` call. -/
def progInitReturn : Program := ⟨[
  .classd "P" [.mk "init" ["x"]
    [.exprStmt (.setattr .thisE "x" (.var "x")),
     .ret (some (.lit (.num 99)))]] none,
  .varDef "p" (.call (.var "P") [.lit (.num 1)]),
  .printS (.getattr (.var "p") "x"),
  .printS (.getattr (.call (.getattr (.var "p") "init") [.lit (.num 2)]) "x")]⟩

/-- The `init` method of `progInitReturn`'s class, captured at the global
frame. -/
def initFnP : FnV :=
  ⟨"init", ["x"], [.exprStmt (.setattr .thisE "x" (.var "x"))], 0, none⟩

/-- A class `P` with that `init`. -/
def classP : ClassV := .mk "P" [("init", initFnP)] none

/-- `class A { init() { var x = -"s"; } } var a = A(); print "after";` -/
def progInitSwallow : Program := ⟨[
  .classd "A" [.mk "init" [] [.varDef "x" (.unary (.lit (.str "s")) .neg)]] none,
  .varDef "a" (.call (.var "A") []),
  .printS (.lit (.str "after"))]⟩

/-- `class A {} var a = A(); a.klass = 5; print a.klass;` -/
def progKlassShadow : Program := ⟨[
  .classd "A" [] none,
  .varDef "a" (.call (.var "A") []),
  .exprStmt (.setattr (.var "a") "klass" (.lit (.num 5))),
  .printS (.getattr (.var "a") "klass")]⟩

-- C5: syntactic scope-misuse scanners.  `ic` says the position is inside a
-- `Class`, `nb` whether the nearest enclosing class declares a base, and
-- `inFun` whether the position is inside a `Function` body.

mutual

/-- No `this` outside a class and no `super` outside a class with a base,
anywhere in the expression. -/
def exprMisuseFree (ic nb : Bool) : Expr → Bool
  | .lit _ => true
  | .var _ => true
  | .binop l r _ => exprMisuseFree ic nb l && exprMisuseFree ic nb r
  | .unary o _ => exprMisuseFree ic nb o
  | .andE l r => exprMisuseFree ic nb l && exprMisuseFree ic nb r
  | .orE l r => exprMisuseFree ic nb l && exprMisuseFree ic nb r
  | .call c ps => exprMisuseFree ic nb c && exprsMisuseFree ic nb ps
  | .thisE => ic
  | .superE _ => ic && nb
  | .assign _ v => exprMisuseFree ic nb v
  | .getattr o _ => exprMisuseFree ic nb o
  | .setattr o _ v => exprMisuseFree ic nb o && exprMisuseFree ic nb v

def exprsMisuseFree (ic nb : Bool) : List Expr → Bool
  | [] => true
  | e :: rest => exprMisuseFree ic nb e && exprsMisuseFree ic nb rest

def optExprMisuseFree (ic nb : Bool) : Option Expr → Bool
  | none => true
  | some e => exprMisuseFree ic nb e

/-- Additionally: no `return` outside a function body. -/
def stmtMisuseFree (ic nb inFun : Bool) : Stmt → Bool
  | .exprStmt e => exprMisuseFree ic nb e
  | .printS e => exprMisuseFree ic nb e
  | .ret v => inFun && optExprMisuseFree ic nb v
  | .varDef _ i => exprMisuseFree ic nb i
  | .ifS c t e =>
      exprMisuseFree ic nb c && stmtMisuseFree ic nb inFun t &&
        stmtMisuseFree ic nb inFun e
  | .whileS c b => exprMisuseFree ic nb c && stmtMisuseFree ic nb inFun b
  | .block ss => stmtsMisuseFree ic nb inFun ss
  | .fund _ _ body => stmtsMisuseFree ic nb true body
  | .classd _ ms base => funDeclsMisuseFree true base.isSome ms

def stmtsMisuseFree (ic nb inFun : Bool) : List Stmt → Bool
  | [] => true
  | s :: rest => stmtMisuseFree ic nb inFun s && stmtsMisuseFree ic nb inFun rest

def funDeclsMisuseFree (ic nb : Bool) : List FunDecl → Bool
  | [] => true
  | .mk _ _ body :: rest =>
      stmtsMisuseFree ic nb true body && funDeclsMisuseFree ic nb rest

end

/-- The evaluation outcome is the `LoxReturn` control signal. -/
def isRet {A : Type} : Except Err A → Bool
  | .error (.ret _) => true
  | _ => false

/-- Whether an error is the return signal. -/
def isRetE : Err → Bool
  | .ret _ => true
  | _ => false

/-- `class A { m() { print this; } } (A.m)();` — validates (the `this` is
inside a class), yet the unbound method extracted from the class runs with
no `this` frame. -/
def progThisUnbound : Program := ⟨[
  .classd "A" [.mk "m" [] [.printS .thisE]] none,
  .exprStmt (.call (.getattr (.var "A") "m") [])]⟩

/-- `fun f() { return 1; } f();` — a validated program whose `return` sits
inside a function. -/
def progRetInFun : Program := ⟨[
  .fund "f" [] [.ret (some (.lit (.num 1)))],
  .exprStmt (.call (.var "f") [])]⟩

/-- C1: the claim says Function/Class/Instance values are `==`-equal only
when they are the same object.  The code compares them with Python `==`,
which for these dataclasses is field-wise structural equality: the two
distinct instances of `twoInstSt` (different heap ids, so different objects)
with the same class and equal (empty) field maps compare equal. -/
theorem C1_counterexample :
    loxEq twoInstSt (.inst 0) (.inst 1) = some true ∧
    Value.inst 0 ≠ Value.inst 1 := by
  constructor
  · rfl
  · simp

/-- C1 (amended): equality across distinct kinds is always false; Bool,
Number and Str compare by value and Nil equals Nil; but Function, Class and
Instance values compare by dataclass structural equality rather than
identity — in particular two distinct instances of the same class with equal
field maps are equal. -/
theorem C1_equality :
    (∀ (st : St) (a b : Value), kindOf a ≠ kindOf b → loxEq st a b = some false) ∧
    (∀ (st : St) (x y : Bool), loxEq st (.bool x) (.bool y) = some (x == y)) ∧
    (∀ (st : St) (x y : Int), loxEq st (.num x) (.num y) = some (x == y)) ∧
    (∀ (st : St) (x y : String), loxEq st (.str x) (.str y) = some (x == y)) ∧
    (∀ st : St, loxEq st .nil .nil = some true) ∧
    loxEq twoInstSt (.inst 0) (.inst 1) = some true := by
  refine ⟨?_, fun st x y => rfl, fun st x y => rfl, fun st x y => rfl,
    fun st => rfl, rfl⟩
  intro st a b h
  have hs : sameType a b = false := by
    cases a <;> cases b <;> simp_all [kindOf, sameType]
  unfold loxEq
  rw [hs]
  simp

/-- Witness for `C1_equality` at a concrete pair of distinct kinds. -/
theorem C1_equality_witness :
    kindOf (Value.num 1) ≠ kindOf (Value.str "1") ∧
    loxEq initSt (.num 1) (.str "1") = some false :=
  ⟨by decide, C1_equality.1 initSt (.num 1) (.str "1") (by decide)⟩

/-- C2: `Or` evaluates the left operand first; a truthy left value (anything
but `nil` and `false`, including `0` and `""`) is returned unchanged and the
right operand is never evaluated (the result does not depend on `r`);
otherwise the result is exactly the evaluation of the right operand.
Concretely, `print 0 or "hi";` prints `0` and `print nil or "hi";` prints
`hi`. -/
theorem C2_or_short_circuit :
    (∀ (f : Nat) (l r : Expr) (ctx : Nat) (st st1 : St) (v : Value),
        evalExpr f l ctx st = (st1, .ok v) → truthy v = true →
        evalExpr (f + 1) (.orE l r) ctx st = (st1, .ok v)) ∧
    (∀ (f : Nat) (l r : Expr) (ctx : Nat) (st st1 : St) (v : Value),
        evalExpr f l ctx st = (st1, .ok v) → truthy v = false →
        evalExpr (f + 1) (.orE l r) ctx st = evalExpr f r ctx st1) ∧
    (evalProgram 9 progOrZero).1.out = ["0"] ∧
    (evalProgram 9 progOrZero).2 = .ok () ∧
    (evalProgram 9 progOrNil).1.out = ["hi"] ∧
    (evalProgram 9 progOrNil).2 = .ok () := by
  refine ⟨?_, ?_, by rfl, by rfl, by rfl, by rfl⟩
  · intro f l r ctx st st1 v h ht
    cases v with
    | nil => simp [truthy] at ht
    | bool b =>
        cases b with
        | false => simp [truthy] at ht
        | true => simp [evalExpr, h]
    | num n =>
        simp only [evalExpr, h]
        split <;> rfl
    | str s =>
        simp only [evalExpr, h]
        split <;> rfl
    | fn g => simp [evalExpr, h]
    | cls c => simp [evalExpr, h]
    | inst i => simp [evalExpr, h]
    | host => simp [evalExpr, h]
  · intro f l r ctx st st1 v h ht
    cases v with
    | nil => simp [evalExpr, h]
    | bool b =>
        cases b with
        | false => simp [evalExpr, h]
        | true => simp [truthy] at ht
    | num n => simp [truthy] at ht
    | str s => simp [truthy] at ht
    | fn g => simp [truthy] at ht
    | cls c => simp [truthy] at ht
    | inst i => simp [truthy] at ht
    | host => simp [truthy] at ht

/-- Witness for `C2_or_short_circuit` at a concrete truthy left operand. -/
theorem C2_or_short_circuit_witness :
    truthy (.num 0) = true ∧
    evalExpr 2 (.orE (.lit (.num 0)) (.lit (.str "unused"))) 0 initSt
      = (initSt, .ok (.num 0)) :=
  ⟨rfl, C2_or_short_circuit.1 1 (.lit (.num 0)) (.lit (.str "unused")) 0
    initSt initSt (.num 0) (by rfl) rfl⟩

/-- C7: the claim says every non-Instance receiver is rejected with
`"Only instances can have fields."`.  On a Number receiver the code instead
falls through to Python `setattr`, which raises a host `AttributeError`
with a different message: `var x = 1; x.y = 2;` fails with
`"'float' object has no attribute 'y'"`, not the Lox error. -/
theorem C7_counterexample :
    (evalProgram 20 progSetattrNum).2
      = .error (.attrE "'float' object has no attribute 'y'") ∧
    (evalProgram 20 progSetattrNum).2
      ≠ .error (.lox "Apenas instâncias podem ter campos.") := by
  refine ⟨rfl, ?_⟩
  intro h
  rw [show (evalProgram 20 progSetattrNum).2
        = .error (.attrE "'float' object has no attribute 'y'") from rfl] at h
  simp at h

/-- C7 (amended): `Setattr` evaluates the object, then the value.  Class and
Function receivers are rejected with the Lox error
`"Apenas instâncias podem ter campos."` (\"Only instances can have
fields.\"); an Instance receiver gets the value stored in its field map and
the expression evaluates to the assigned value; a primitive receiver
(Number, Str, Bool, Nil) is also rejected, but by the host `AttributeError`
of the attempted Python `setattr`, not by the Lox error. -/
theorem C7_setattr :
    ∀ (f : Nat) (o vE : Expr) (nm : String) (ctx : Nat) (st st1 st2 : St)
      (ov vv : Value),
      evalExpr f o ctx st = (st1, .ok ov) →
      evalExpr f vE ctx st1 = (st2, .ok vv) →
      (isClsOrFn ov = true →
        evalExpr (f + 1) (.setattr o nm vE) ctx st
          = (st2, .error (.lox "Apenas instâncias podem ter campos."))) ∧
      (∀ i, ov = .inst i →
        evalExpr (f + 1) (.setattr o nm vE) ctx st
          = (setInstField st2 i nm vv, .ok vv)) ∧
      (isPrimV ov = true →
        evalExpr (f + 1) (.setattr o nm vE) ctx st
          = (st2, .error (.attrE ("'" ++ pyTypeName ov ++
              "' object has no attribute '" ++ nm ++ "'")))) := by
  intro f o vE nm ctx st st1 st2 ov vv h1 h2
  refine ⟨fun hk => ?_, fun i hi => ?_, fun hp => ?_⟩
  · cases ov with
    | cls c => simp [evalExpr, h1, h2]
    | fn g => simp [evalExpr, h1, h2]
    | nil => simp [isClsOrFn] at hk
    | bool b => simp [isClsOrFn] at hk
    | num n => simp [isClsOrFn] at hk
    | str s => simp [isClsOrFn] at hk
    | inst j => simp [isClsOrFn] at hk
    | host => simp [isClsOrFn] at hk
  · subst hi
    simp [evalExpr, h1, h2]
  · cases ov with
    | nil => simp [evalExpr, h1, h2, pyTypeName]
    | bool b => simp [evalExpr, h1, h2, pyTypeName]
    | num n => simp [evalExpr, h1, h2, pyTypeName]
    | str s => simp [evalExpr, h1, h2, pyTypeName]
    | cls c => simp [isPrimV] at hp
    | fn g => simp [isPrimV] at hp
    | inst j => simp [isPrimV] at hp
    | host => simp [isPrimV] at hp

/-- Witness for `C7_setattr`: storing a field on a live instance. -/
theorem C7_setattr_witness :
    evalExpr 2 (.setattr (.var "a") "x" (.lit (.num 5))) 0 stW
      = (setInstField stW 0 "x" (.num 5), .ok (.num 5)) :=
  (C7_setattr 1 (.var "a") (.lit (.num 5)) "x" 0 stW stW stW (.inst 0)
    (.num 5) (by rfl) (by rfl)).2.1 0 rfl

/-- C9: the claim says `Getattr` on a Function (or other non-Instance,
non-Class) receiver errors for every attribute name.  But the code uses
Python `getattr`, and `name` is a real dataclass attribute of
`LoxFunction`: `fun f() {} print f.name;` prints `f` and succeeds. -/
theorem C9_counterexample :
    (evalProgram 20 progFnName).1.out = ["f"] ∧
    (evalProgram 20 progFnName).2 = .ok () := by
  exact ⟨rfl, rfl⟩

/-- C9 (amended): `Getattr` on a Number, Str, Bool, Nil or Function receiver
raises the `AttributeError` `"O objeto X não possui o atributo 'NAME'"` for
every attribute name that is not a host-level (Python) attribute of the
underlying object; names that are host attributes (`name` on a function,
`upper` on a string, ...) instead yield the host attribute. -/
theorem C9_getattr_nonattrs :
    ∀ (f : Nat) (o : Expr) (nm : String) (ctx : Nat) (st st1 : St)
      (ov : Value),
      evalExpr f o ctx st = (st1, .ok ov) →
      noHostAttr ov nm = true →
      evalExpr (f + 1) (.getattr o nm) ctx st
        = (st1, .error (.attrE ("O objeto " ++ pyStr st1 ov ++
            " não possui o atributo '" ++ nm ++ "'"))) := by
  intro f o nm ctx st st1 ov h1 hn
  cases ov with
  | fn g =>
      simp only [noHostAttr, Option.isNone] at hn
      rcases hpf : pyFnAttr g nm with _ | w
      · simp [evalExpr, h1, hpf]
      · rw [hpf] at hn; simp at hn
  | nil =>
      simp only [noHostAttr, Bool.not_eq_true'] at hn
      simp [evalExpr, h1, hn]
  | bool b =>
      simp only [noHostAttr, Bool.not_eq_true'] at hn
      simp [evalExpr, h1, hn]
  | num n =>
      simp only [noHostAttr, Bool.not_eq_true'] at hn
      simp [evalExpr, h1, hn]
  | str s =>
      simp only [noHostAttr, Bool.not_eq_true'] at hn
      simp [evalExpr, h1, hn]
  | cls c => simp [noHostAttr] at hn
  | inst i => simp [noHostAttr] at hn
  | host => simp [noHostAttr] at hn

/-- Witness for `C9_getattr_nonattrs`: `foo` is no attribute of a float. -/
theorem C9_getattr_nonattrs_witness :
    evalExpr 2 (.getattr (.lit (.num 3)) "foo") 0 initSt
      = (initSt, .error (.attrE "O objeto 3.0 não possui o atributo 'foo'")) :=
  C9_getattr_nonattrs 1 (.lit (.num 3)) "foo" 0 initSt initSt (.num 3)
    (by rfl) (by rfl)

/-- C10: `Call.eval` evaluates the callee, then the whole argument list left
to right (side effects included), and only then checks callability: a
non-callable callee errors `"'VALUE' não é uma função!"` only after the
arguments ran.  Concretely `fun g() { print "side"; } 3(g());` prints
`side` before failing. -/
theorem C10_args_before_callable_check :
    (∀ (f : Nat) (callee : Expr) (args : List Expr) (ctx : Nat) (st st1 : St)
        (fv : Value),
      evalExpr f callee ctx st = (st1, .ok fv) →
      notCallable fv = true →
      evalExpr (f + 1) (.call callee args) ctx st
        = (match evalArgs f args ctx st1 with
           | (st2, .ok _) =>
               (st2, .error (.typeE ("'" ++ pyStr st2 fv ++ "' não é uma função!")))
           | (st2, .error er) => (st2, .error er))) ∧
    (evalProgram 20 progCallNonFn).1.out = ["side"] ∧
    (evalProgram 20 progCallNonFn).2 = .error (.typeE "'3.0' não é uma função!") := by
  refine ⟨?_, by rfl, by rfl⟩
  intro f callee args ctx st st1 fv h1 hnc
  simp only [evalExpr, h1]
  rcases hargs : evalArgs f args ctx st1 with ⟨st2, r⟩
  cases r with
  | ok vs => cases fv <;> simp_all [notCallable]
  | error er => simp

/-- Witness for `C10_args_before_callable_check` with an empty argument
list. -/
theorem C10_args_before_callable_check_witness :
    evalExpr 5 (.call (.lit (.num 3)) []) 0 initSt
      = (initSt, .error (.typeE "'3.0' não é uma função!")) := by
  have h := C10_args_before_callable_check.1 4 (.lit (.num 3)) [] 0 initSt
    initSt (.num 3) (by rfl) (by rfl)
  simpa using h

/-- C3: calling a class constructs a fresh instance (the next heap id); when
`init` resolves through the class chain it is bound to that instance and
called with the arguments, and whenever the call completes it evaluates to
that instance — whatever the init body returned; likewise a
`LoxInitFunction` obtained from `Getattr` evaluates, on every completed
call, to its instance.  The concrete program shows the `Return 99` inside
`init` being ignored on both paths while the instance's state reflects the
init bodies (`p.x` prints `1` then `2`). -/
theorem C3_class_call_and_init :
    (∀ (f : Nat) (c : ClassV) (args : List Value) (st : St) (m : FnV)
        (st3 : St) (r : Except Err Value),
      getMethod c "init" = some m →
      classCall (f + 1) c args st = (st3, r) →
      (∃ e, r = .error e) ∨ r = .ok (.inst st.insts.length)) ∧
    (∀ (f : Nat) (g : FnV) (args : List Value) (i : Nat) (st st' : St)
        (r : Except Err Value),
      g.initInstance = some i →
      callFunction f g args st = (st', r) →
      (∃ e, r = .error e) ∨ r = .ok (.inst i)) ∧
    (evalProgram 40 progInitReturn).1.out = ["1", "2"] ∧
    (evalProgram 40 progInitReturn).2 = .ok () := by
  refine ⟨?_, ?_, by rfl, by rfl⟩
  · intro f c args st m st3 r hm hcc
    simp only [classCall, hm] at hcc
    rcases hc : callFunction f
        ((bindFn { st with insts := st.insts ++ [⟨c, []⟩] } m
          (.inst st.insts.length)).2) args
        ((bindFn { st with insts := st.insts ++ [⟨c, []⟩] } m
          (.inst st.insts.length)).1) with ⟨st4, r4⟩
    rw [hc] at hcc
    cases r4 with
    | ok v =>
        cases hcc
        right
        rfl
    | error er =>
        cases er with
        | lox m' =>
            by_cases hl : args.length > 0
            · simp only [hl, if_pos, gt_iff_lt] at hcc
              cases hcc
              left
              exact ⟨_, rfl⟩
            · simp only [gt_iff_lt] at hl hcc
              rw [if_neg hl] at hcc
              cases hcc
              right
              rfl
        | ret v => cases hcc; left; exact ⟨_, rfl⟩
        | nameE m' => cases hcc; left; exact ⟨_, rfl⟩
        | typeE m' => cases hcc; left; exact ⟨_, rfl⟩
        | attrE m' => cases hcc; left; exact ⟨_, rfl⟩
        | keyE m' => cases hcc; left; exact ⟨_, rfl⟩
        | recE => cases hcc; left; exact ⟨_, rfl⟩
        | fuel => cases hcc; left; exact ⟨_, rfl⟩
  · intro f g args i st st' r hinit hcall
    cases f with
    | zero =>
        simp only [callFunction] at hcall
        cases hcall
        left
        exact ⟨_, rfl⟩
    | succ f' =>
        simp only [callFunction] at hcall
        by_cases har : args.length != g.params.length
        · rw [if_pos har] at hcall
          cases hcall
          left
          exact ⟨_, rfl⟩
        · rw [if_neg har] at hcall
          rcases hb : evalStmt f' (.block g.body)
              ((ctxPush st g.ctx (zipBind g.params args)).2)
              ((ctxPush st g.ctx (zipBind g.params args)).1) with ⟨stb, rb⟩
          rw [hb] at hcall
          cases rb with
          | ok u =>
              rw [hinit] at hcall
              cases hcall
              right
              rfl
          | error er =>
              cases er with
              | ret v =>
                  rw [hinit] at hcall
                  cases hcall
                  right
                  rfl
              | lox m' => cases hcall; left; exact ⟨_, rfl⟩
              | nameE m' => cases hcall; left; exact ⟨_, rfl⟩
              | typeE m' => cases hcall; left; exact ⟨_, rfl⟩
              | attrE m' => cases hcall; left; exact ⟨_, rfl⟩
              | keyE m' => cases hcall; left; exact ⟨_, rfl⟩
              | recE => cases hcall; left; exact ⟨_, rfl⟩
              | fuel => cases hcall; left; exact ⟨_, rfl⟩

/-- Witness for `C3_class_call_and_init`: `P(7)` yields instance 0. -/
theorem C3_class_call_and_init_witness :
    (∃ e, ((classCall 20 classP [Value.num 7] initSt).2 : Except Err Value)
        = .error e) ∨
    (classCall 20 classP [Value.num 7] initSt).2 = .ok (.inst 0) := by
  have h := C3_class_call_and_init.1 19 classP [Value.num 7] initSt initFnP
    (classCall 20 classP [Value.num 7] initSt).1
    (classCall 20 classP [Value.num 7] initSt).2 (by rfl) (by rfl)
  simpa [initSt] using h

/-- C4: the claim says a runtime error propagates uncaught through every
construct, class instantiation included.  But the `except LoxError` in
`LoxClass.__call__` also catches a `LoxError` raised by the *init body*:
here `-"s"` raises `"Operand must be a number."` inside `init`, the
zero-argument constructor call swallows it, and the program continues and
prints `after`. -/
theorem C4_init_error_swallowed :
    (evalExpr 5 (.unary (.lit (.str "s")) .neg) 0 initSt).2
      = .error (.lox "Operand must be a number.") ∧
    (evalProgram 30 progInitSwallow).2 = .ok () ∧
    (evalProgram 30 progInitSwallow).1.out = ["after"] := by
  refine ⟨?_, ?_, ?_⟩ <;> rfl

/-- C6: the claim says `Getattr` on an instance consults the instance's own
field map first for every attribute name.  But `Getattr.eval` uses raw
Python `getattr`, so the implementation attribute `klass` shadows the Lox
field: after `a.klass = 5` the field map holds `klass ↦ 5`, yet
`print a.klass;` prints the class (`A`) instead of `5`. -/
theorem C6_python_attr_shadows_field :
    (evalProgram 30 progKlassShadow).1.out = ["A"] ∧
    (evalProgram 30 progKlassShadow).2 = .ok () ∧
    ((evalProgram 30 progKlassShadow).1.insts.get? 0).map InstData.fields
      = some [("klass", Value.num 5)] := by
  refine ⟨?_, ?_, ?_⟩ <;> rfl

/-- A validated function declaration had its body statements validated inside
the function scope. -/
theorem validateFunction_ok_body (cur : List ScopeKind) (ps : List String)
    (body : List Stmt) (h : validateFunction cur ps body = .ok ()) :
    validateStmts (.function :: cur) body = .ok () := by
  simp only [validateFunction] at h
  cases h1 : firstReservedParam ps with
  | some p => simp only [h1] at h; exact absurd h (by simp)
  | none =>
      simp only [h1] at h
      cases h2 : firstDupParam ps with
      | some p => simp only [h2] at h; exact absurd h (by simp)
      | none =>
          simp only [h2] at h
          cases h3 : firstShadowingVarDef ps body with
          | some n => simp only [h3] at h; exact absurd h (by simp)
          | none =>
              simp only [h3] at h
              cases h4 : blockFirstDupGo [] body with
              | some n => simp only [h4] at h; exact absurd h (by simp)
              | none => simp only [h4] at h; exact h

mutual

/-- A validated expression has no scope misuse, relative to its cursor. -/
theorem validateExpr_sound : ∀ (cur : List ScopeKind) (e : Expr),
    validateExpr cur e = .ok () →
    exprMisuseFree (cursorHasClass cur)
      ((cursorNearestClassBase cur).getD false) e = true
  | cur, .lit _, _ => rfl
  | cur, .var _, _ => rfl
  | cur, .binop l r op, h => by
      simp only [validateExpr] at h
      cases hl : validateExpr cur l with
      | error er => simp only [hl] at h; exact absurd h (by simp)
      | ok u =>
          cases u
          simp only [hl] at h
          simp [exprMisuseFree, validateExpr_sound cur l hl,
            validateExpr_sound cur r h]
  | cur, .unary o op, h => by
      simp only [validateExpr] at h
      simpa [exprMisuseFree] using validateExpr_sound cur o h
  | cur, .andE l r, h => by
      simp only [validateExpr] at h
      cases hl : validateExpr cur l with
      | error er => simp only [hl] at h; exact absurd h (by simp)
      | ok u =>
          cases u
          simp only [hl] at h
          simp [exprMisuseFree, validateExpr_sound cur l hl,
            validateExpr_sound cur r h]
  | cur, .orE l r, h => by
      simp only [validateExpr] at h
      cases hl : validateExpr cur l with
      | error er => simp only [hl] at h; exact absurd h (by simp)
      | ok u =>
          cases u
          simp only [hl] at h
          simp [exprMisuseFree, validateExpr_sound cur l hl,
            validateExpr_sound cur r h]
  | cur, .call c ps, h => by
      simp only [validateExpr] at h
      cases hc : validateExpr cur c with
      | error er => simp only [hc] at h; exact absurd h (by simp)
      | ok u =>
          cases u
          simp only [hc] at h
          simp [exprMisuseFree, validateExpr_sound cur c hc,
            validateExprs_sound cur ps h]
  | cur, .thisE, h => by
      simp only [validateExpr] at h
      by_cases hc : cursorHasClass cur = true
      · simpa [exprMisuseFree] using hc
      · rw [if_neg hc] at h; exact absurd h (by simp)
  | cur, .superE nm, h => by
      simp only [validateExpr] at h
      by_cases hc : cursorHasClass cur = true
      · rw [if_pos hc] at h
        cases hnb : cursorNearestClassBase cur with
        | none => simp only [hnb] at h; exact absurd h (by simp)
        | some b =>
            cases b with
            | false => simp only [hnb] at h; exact absurd h (by simp)
            | true => simp [exprMisuseFree, hc, hnb]
      · rw [if_neg hc] at h; exact absurd h (by simp)
  | cur, .assign nm v, h => by
      simp only [validateExpr] at h
      simpa [exprMisuseFree] using validateExpr_sound cur v h
  | cur, .getattr o nm, h => by
      simp only [validateExpr] at h
      simpa [exprMisuseFree] using validateExpr_sound cur o h
  | cur, .setattr o nm v, h => by
      simp only [validateExpr] at h
      cases ho : validateExpr cur o with
      | error er => simp only [ho] at h; exact absurd h (by simp)
      | ok u =>
          cases u
          simp only [ho] at h
          simp [exprMisuseFree, validateExpr_sound cur o ho,
            validateExpr_sound cur v h]

theorem validateExprs_sound : ∀ (cur : List ScopeKind) (es : List Expr),
    validateExprs cur es = .ok () →
    exprsMisuseFree (cursorHasClass cur)
      ((cursorNearestClassBase cur).getD false) es = true
  | cur, [], _ => rfl
  | cur, e :: rest, h => by
      simp only [validateExprs] at h
      cases he : validateExpr cur e with
      | error er => simp only [he] at h; exact absurd h (by simp)
      | ok u =>
          cases u
          simp only [he] at h
          simp [exprsMisuseFree, validateExpr_sound cur e he,
            validateExprs_sound cur rest h]

theorem validateOptExpr_sound : ∀ (cur : List ScopeKind) (v : Option Expr),
    validateOptExpr cur v = .ok () →
    optExprMisuseFree (cursorHasClass cur)
      ((cursorNearestClassBase cur).getD false) v = true
  | cur, none, _ => rfl
  | cur, some e, h => by
      simp only [validateOptExpr] at h
      simpa [optExprMisuseFree] using validateExpr_sound cur e h

/-- A validated statement has no scope misuse, relative to its cursor. -/
theorem validateStmt_sound : ∀ (cur : List ScopeKind) (s : Stmt),
    validateStmt cur s = .ok () →
    stmtMisuseFree (cursorHasClass cur)
      ((cursorNearestClassBase cur).getD false) (cursorHasFunction cur) s = true
  | cur, .exprStmt e, h => by
      simp only [validateStmt] at h
      simpa [stmtMisuseFree] using validateExpr_sound cur e h
  | cur, .printS e, h => by
      simp only [validateStmt] at h
      simpa [stmtMisuseFree] using validateExpr_sound cur e h
  | cur, .ret v, h => by
      simp only [validateStmt] at h
      by_cases hf : cursorHasFunction cur = true
      · rw [if_pos hf] at h
        simp [stmtMisuseFree, hf, validateOptExpr_sound cur v h]
      · rw [if_neg hf] at h; exact absurd h (by simp)
  | cur, .varDef nm i, h => by
      simp only [validateStmt] at h
      by_cases hr : RESERVED_WORDS.contains nm = true
      · rw [if_pos hr] at h; exact absurd h (by simp)
      · rw [if_neg hr] at h
        simpa [stmtMisuseFree] using validateExpr_sound cur i h
  | cur, .ifS c t e, h => by
      simp only [validateStmt] at h
      cases hc : validateExpr cur c with
      | error er => simp only [hc] at h; exact absurd h (by simp)
      | ok u =>
          cases u
          simp only [hc] at h
          cases ht : validateStmt cur t with
          | error er => simp only [ht] at h; exact absurd h (by simp)
          | ok u =>
              cases u
              simp only [ht] at h
              simp [stmtMisuseFree, validateExpr_sound cur c hc,
                validateStmt_sound cur t ht, validateStmt_sound cur e h]
  | cur, .whileS c b, h => by
      simp only [validateStmt] at h
      cases hc : validateExpr cur c with
      | error er => simp only [hc] at h; exact absurd h (by simp)
      | ok u =>
          cases u
          simp only [hc] at h
          simp [stmtMisuseFree, validateExpr_sound cur c hc,
            validateStmt_sound cur b h]
  | cur, .block ss, h => by
      simp only [validateStmt] at h
      cases hd : blockFirstDupGo [] ss with
      | some n => simp only [hd] at h; exact absurd h (by simp)
      | none =>
          simp only [hd] at h
          simpa [stmtMisuseFree] using validateStmts_sound cur ss h
  | cur, .fund nm ps body, h => by
      simp only [validateStmt] at h
      have hb := validateFunction_ok_body cur ps body h
      have ih := validateStmts_sound (.function :: cur) body hb
      simpa [stmtMisuseFree, cursorHasClass, cursorNearestClassBase,
        cursorHasFunction] using ih
  | cur, .classd nm ms base, h => by
      simp only [validateStmt] at h
      have ih := validateMethods_sound (.classScope base.isSome :: cur) ms h
      simpa [stmtMisuseFree, cursorHasClass, cursorNearestClassBase] using ih

theorem validateStmts_sound : ∀ (cur : List ScopeKind) (ss : List Stmt),
    validateStmts cur ss = .ok () →
    stmtsMisuseFree (cursorHasClass cur)
      ((cursorNearestClassBase cur).getD false) (cursorHasFunction cur) ss = true
  | cur, [], _ => rfl
  | cur, s :: rest, h => by
      simp only [validateStmts] at h
      cases hs : validateStmt cur s with
      | error er => simp only [hs] at h; exact absurd h (by simp)
      | ok u =>
          cases u
          simp only [hs] at h
          simp [stmtsMisuseFree, validateStmt_sound cur s hs,
            validateStmts_sound cur rest h]

theorem validateMethods_sound : ∀ (cur : List ScopeKind) (ms : List FunDecl),
    validateMethods cur ms = .ok () →
    funDeclsMisuseFree (cursorHasClass cur)
      ((cursorNearestClassBase cur).getD false) ms = true
  | cur, [], _ => rfl
  | cur, .mk nm ps body :: rest, h => by
      simp only [validateMethods] at h
      cases hf : validateFunction cur ps body with
      | error er => simp only [hf] at h; exact absurd h (by simp)
      | ok u =>
          cases u
          simp only [hf] at h
          have hb := validateFunction_ok_body cur ps body hf
          have ih1 := validateStmts_sound (.function :: cur) body hb
          have ih2 := validateMethods_sound cur rest h
          simp only [funDeclsMisuseFree, Bool.and_eq_true]
          exact ⟨by simpa [cursorHasClass, cursorNearestClassBase,
            cursorHasFunction] using ih1, ih2⟩

end

theorem isRet_opToErr (er : OpErr) :
    isRet (Except.error (opToErr er) : Except Err Value) = false := by
  cases er <;> rfl

theorem liftOp_no_ret (x : Except OpErr Value) : isRet (liftOp x) = false := by
  cases x with
  | ok v => rfl
  | error e => cases e <;> rfl

theorem isRet_error {A : Type} (er : Err) :
    isRet (Except.error er : Except Err A) = isRetE er := by
  cases er <;> rfl

/-- `LoxFunction.call` catches `LoxReturn` at the call boundary: its result
is never the return signal, whatever the body does. -/
theorem callFunction_no_ret (f : Nat) (g : FnV) (args : List Value) (st : St) :
    isRet (callFunction f g args st).2 = false := by
  cases f with
  | zero => rfl
  | succ f' =>
      simp only [callFunction]
      by_cases har : args.length != g.params.length
      · rw [if_pos har]
        rfl
      · rw [if_neg har]
        rcases hb : evalStmt f' (.block g.body)
            ((ctxPush st g.ctx (zipBind g.params args)).2)
            ((ctxPush st g.ctx (zipBind g.params args)).1) with ⟨stb, rb⟩
        cases rb with
        | ok u => cases g.initInstance <;> rfl
        | error er => cases er <;> first
            | rfl
            | (cases g.initInstance <;> rfl)

/-- `LoxClass.__call__` funnels through `call`, so it never surfaces the
return signal either. -/
theorem classCall_no_ret (f : Nat) (c : ClassV) (args : List Value) (st : St) :
    isRet (classCall f c args st).2 = false := by
  cases f with
  | zero => rfl
  | succ f' =>
      simp only [classCall]
      split
      · rename_i m hgm
        split
        · rfl
        · split <;> rfl
        · rename_i xx stE erE hnlox heqq
          have hnr := callFunction_no_ret f'
              ((bindFn { st with insts := st.insts ++ [⟨c, []⟩] } m
                (.inst st.insts.length)).2) args
              ((bindFn { st with insts := st.insts ++ [⟨c, []⟩] } m
                (.inst st.insts.length)).1)
          rw [heqq] at hnr
          exact hnr
      · split <;> rfl

/-- Expressions never surface the `LoxReturn` signal: every function call
inside them catches it at the call boundary. -/
theorem exprNoRet : ∀ f : Nat,
    (∀ (e : Expr) (ctx : Nat) (st : St), isRet (evalExpr f e ctx st).2 = false) ∧
    (∀ (es : List Expr) (ctx : Nat) (st : St),
      isRet (evalArgs f es ctx st).2 = false) := by
  intro f
  induction f with
  | zero => exact ⟨fun e ctx st => rfl, fun es ctx st => rfl⟩
  | succ f' ih =>
      obtain ⟨ihE, ihA⟩ := ih
      constructor
      · intro e ctx st
        cases e with
        | lit v => rfl
        | var nm => simp only [evalExpr]; split <;> rfl
        | binop l r op =>
            simp only [evalExpr]
            rcases h1 : evalExpr f' l ctx st with ⟨st1, r1⟩
            have n1 := ihE l ctx st
            rw [h1] at n1
            cases r1 with
            | error er => exact n1
            | ok lv =>
                rcases h2 : evalExpr f' r ctx st1 with ⟨st2, r2⟩
                have n2 := ihE r ctx st1
                rw [h2] at n2
                simp only [h2]
                cases r2 with
                | error er => exact n2
                | ok rv => exact liftOp_no_ret (applyBin st2 op lv rv)
        | unary o op =>
            simp only [evalExpr]
            rcases h1 : evalExpr f' o ctx st with ⟨st1, r1⟩
            have n1 := ihE o ctx st
            rw [h1] at n1
            cases r1 with
            | error er => exact n1
            | ok v =>
                cases op with
                | neg => exact liftOp_no_ret (negV v)
                | notOp => exact liftOp_no_ret (notV v)
        | andE l r =>
            simp only [evalExpr]
            rcases h1 : evalExpr f' l ctx st with ⟨st1, r1⟩
            have n1 := ihE l ctx st
            rw [h1] at n1
            cases r1 with
            | error er => exact n1
            | ok v =>
                cases v with
                | bool b => cases b with
                    | false => rfl
                    | true => exact ihE r ctx st1
                | nil => rfl
                | num n => exact ihE r ctx st1
                | str s => exact ihE r ctx st1
                | fn g => exact ihE r ctx st1
                | cls c => exact ihE r ctx st1
                | inst i => exact ihE r ctx st1
                | host => exact ihE r ctx st1
        | orE l r =>
            simp only [evalExpr]
            rcases h1 : evalExpr f' l ctx st with ⟨st1, r1⟩
            have n1 := ihE l ctx st
            rw [h1] at n1
            cases r1 with
            | error er => exact n1
            | ok v =>
                cases v with
                | bool b => cases b with
                    | false => exact ihE r ctx st1
                    | true => rfl
                | nil => exact ihE r ctx st1
                | num n => cases hz : n == 0 <;> simp [hz, isRet]
                | str s => cases hz : s == "" <;> simp [hz, isRet]
                | fn g => rfl
                | cls c => rfl
                | inst i => rfl
                | host => rfl
        | call callee ps =>
            simp only [evalExpr]
            rcases h1 : evalExpr f' callee ctx st with ⟨st1, r1⟩
            have n1 := ihE callee ctx st
            rw [h1] at n1
            cases r1 with
            | error er => exact n1
            | ok fv =>
                rcases h2 : evalArgs f' ps ctx st1 with ⟨st2, r2⟩
                have n2 := ihA ps ctx st1
                rw [h2] at n2
                simp only [h2]
                cases r2 with
                | error er => simpa [isRet_error] using n2
                | ok args =>
                    cases fv with
                    | fn g => exact callFunction_no_ret f' g args st2
                    | cls c => exact classCall_no_ret f' c args st2
                    | nil => rfl
                    | bool b => rfl
                    | num n => rfl
                    | str s => rfl
                    | inst i => rfl
                    | host => rfl
        | thisE => simp only [evalExpr]; split <;> rfl
        | superE nm =>
            simp only [evalExpr]
            rcases h1 : ctxGet st ctx "this" with _ | iv
            · rfl
            · rcases h2 : ctxGet st ctx "super" with _ | sv
              · simp [h2, isRet]
              · simp only [h2]
                cases sv with
                | cls sc =>
                    rcases h3 : getMethod sc nm with _ | m
                    · simp [h3, isRet]
                    · simp [h3, isRet]
                | nil => rfl
                | bool b => rfl
                | num n => rfl
                | str s => rfl
                | fn g => rfl
                | inst i => rfl
                | host => rfl
        | assign nm v =>
            simp only [evalExpr]
            rcases h1 : evalExpr f' v ctx st with ⟨st1, r1⟩
            have n1 := ihE v ctx st
            rw [h1] at n1
            cases r1 with
            | error er => exact n1
            | ok rv =>
                rcases h2 : ctxAssign st1 ctx nm rv with _ | st2 <;>
                  simp [h2, isRet]
        | getattr o nm =>
            simp only [evalExpr]
            rcases h1 : evalExpr f' o ctx st with ⟨st1, r1⟩
            have n1 := ihE o ctx st
            rw [h1] at n1
            cases r1 with
            | error er => exact n1
            | ok ov =>
                cases ov with
                | cls c =>
                    rcases h2 : getMethod c nm with _ | m <;> simp [h2, isRet]
                | inst i =>
                    rcases h2 : instanceGetattr st1 i nm with ⟨st2, r2⟩
                    simp only [h2]
                    cases r2 with
                    | ok v => rfl
                    | error er => simpa using isRet_opToErr er
                | fn g =>
                    rcases h2 : pyFnAttr g nm with _ | v <;> simp [h2, isRet]
                | host => rfl
                | nil => cases hz : pyPrimAttrExists Value.nil nm <;>
                    simp [hz, isRet]
                | bool b => cases hz : pyPrimAttrExists (Value.bool b) nm <;>
                    simp [hz, isRet]
                | num n => cases hz : pyPrimAttrExists (Value.num n) nm <;>
                    simp [hz, isRet]
                | str s => cases hz : pyPrimAttrExists (Value.str s) nm <;>
                    simp [hz, isRet]
        | setattr o nm v =>
            simp only [evalExpr]
            rcases h1 : evalExpr f' o ctx st with ⟨st1, r1⟩
            have n1 := ihE o ctx st
            rw [h1] at n1
            cases r1 with
            | error er => exact n1
            | ok ov =>
                rcases h2 : evalExpr f' v ctx st1 with ⟨st2, r2⟩
                have n2 := ihE v ctx st1
                rw [h2] at n2
                simp only [h2]
                cases r2 with
                | error er => simpa using n2
                | ok vv =>
                    cases ov with
                    | cls c => rfl
                    | fn g => rfl
                    | inst i => rfl
                    | nil => rfl
                    | bool b => rfl
                    | num n => rfl
                    | str s => rfl
                    | host => rfl
      · intro es ctx st
        cases es with
        | nil => rfl
        | cons e rest =>
            simp only [evalArgs]
            rcases h1 : evalExpr f' e ctx st with ⟨st1, r1⟩
            have n1 := ihE e ctx st
            rw [h1] at n1
            cases r1 with
            | error er => simpa [isRet_error] using n1
            | ok v =>
                rcases h2 : evalArgs f' rest ctx st1 with ⟨st2, r2⟩
                have n2 := ihA rest ctx st1
                rw [h2] at n2
                simp only [h2]
                cases r2 with
                | error er => exact n2
                | ok vs => rfl

/-- Statements without a top-level `return` (outside nested functions) never
surface the return signal. -/
theorem stmtNoRet (ic nb : Bool) : ∀ f : Nat,
    (∀ (s : Stmt) (ctx : Nat) (st : St), stmtMisuseFree ic nb false s = true →
      isRet (evalStmt f s ctx st).2 = false) ∧
    (∀ (ss : List Stmt) (ctx : Nat) (st : St),
      stmtsMisuseFree ic nb false ss = true →
      isRet (evalStmts f ss ctx st).2 = false) := by
  intro f
  induction f with
  | zero => exact ⟨fun s ctx st _ => rfl, fun ss ctx st _ => rfl⟩
  | succ f' ih =>
      obtain ⟨ihS, ihL⟩ := ih
      constructor
      · intro s ctx st hm
        cases s with
        | exprStmt e =>
            simp only [evalStmt]
            rcases h1 : evalExpr f' e ctx st with ⟨st1, r1⟩
            have n1 := (exprNoRet f').1 e ctx st
            rw [h1] at n1
            cases r1 with
            | error er => simpa [isRet_error] using n1
            | ok v => rfl
        | printS e =>
            simp only [evalStmt]
            rcases h1 : evalExpr f' e ctx st with ⟨st1, r1⟩
            have n1 := (exprNoRet f').1 e ctx st
            rw [h1] at n1
            cases r1 with
            | error er => simpa [isRet_error] using n1
            | ok v => rfl
        | ret v => simp [stmtMisuseFree] at hm
        | varDef nm i =>
            simp only [evalStmt]
            rcases h1 : evalExpr f' i ctx st with ⟨st1, r1⟩
            have n1 := (exprNoRet f').1 i ctx st
            rw [h1] at n1
            cases r1 with
            | error er => simpa [isRet_error] using n1
            | ok v => rfl
        | ifS c tB eB =>
            simp only [stmtMisuseFree, Bool.and_eq_true] at hm
            obtain ⟨⟨hc, ht⟩, he⟩ := hm
            simp only [evalStmt]
            rcases h1 : evalExpr f' c ctx st with ⟨st1, r1⟩
            have n1 := (exprNoRet f').1 c ctx st
            rw [h1] at n1
            cases r1 with
            | error er => simpa [isRet_error] using n1
            | ok v =>
                cases v with
                | bool b => cases b with
                    | false => exact ihS eB ctx st1 he
                    | true => exact ihS tB ctx st1 ht
                | nil => exact ihS eB ctx st1 he
                | num n => exact ihS tB ctx st1 ht
                | str s => exact ihS tB ctx st1 ht
                | fn g => exact ihS tB ctx st1 ht
                | cls c2 => exact ihS tB ctx st1 ht
                | inst i => exact ihS tB ctx st1 ht
                | host => exact ihS tB ctx st1 ht
        | whileS c b =>
            have hm2 := hm
            simp only [stmtMisuseFree, Bool.and_eq_true] at hm2
            obtain ⟨hc, hb⟩ := hm2
            simp only [evalStmt]
            rcases h1 : evalExpr f' c ctx st with ⟨st1, r1⟩
            have n1 := (exprNoRet f').1 c ctx st
            rw [h1] at n1
            cases r1 with
            | error er => simpa [isRet_error] using n1
            | ok v =>
                rcases h2 : evalStmt f' b ctx st1 with ⟨st2, r2⟩
                have n2 := ihS b ctx st1 hb
                rw [h2] at n2
                have hrec := ihS (.whileS c b) ctx st2 hm
                cases v with
                | bool bb =>
                    cases bb with
                    | false => rfl
                    | true =>
                        simp only [h2]
                        cases r2 with
                        | ok u => exact hrec
                        | error er => exact n2
                | nil => rfl
                | num n =>
                    simp only [h2]
                    cases r2 with
                    | ok u => exact hrec
                    | error er => exact n2
                | str s =>
                    simp only [h2]
                    cases r2 with
                    | ok u => exact hrec
                    | error er => exact n2
                | fn g =>
                    simp only [h2]
                    cases r2 with
                    | ok u => exact hrec
                    | error er => exact n2
                | cls c2 =>
                    simp only [h2]
                    cases r2 with
                    | ok u => exact hrec
                    | error er => exact n2
                | inst i =>
                    simp only [h2]
                    cases r2 with
                    | ok u => exact hrec
                    | error er => exact n2
                | host =>
                    simp only [h2]
                    cases r2 with
                    | ok u => exact hrec
                    | error er => exact n2
        | block ss =>
            simp only [evalStmt]
            exact ihL ss _ _ hm
        | fund nm ps body => rfl
        | classd nm ms base =>
            simp only [evalStmt]
            cases base with
            | none => rfl
            | some bname =>
                rcases h1 : ctxGet st ctx bname with _ | bv
                · simp [h1, isRet]
                · simp only [h1]
                  cases bv <;> rfl
      · intro ss ctx st hm
        cases ss with
        | nil => rfl
        | cons s rest =>
            simp only [stmtsMisuseFree, Bool.and_eq_true] at hm
            obtain ⟨hs, hrest⟩ := hm
            simp only [evalStmts]
            rcases h1 : evalStmt f' s ctx st with ⟨st1, r1⟩
            have n1 := ihS s ctx st hs
            rw [h1] at n1
            cases r1 with
            | error er => exact n1
            | ok u => exact ihL rest ctx st1 hrest

/-- C5: the claim also asserts that in validated programs the runtime
`this`/`super` lookups are unreachable.  They are not: `progThisUnbound`
passes validation, but calling the *unbound* method obtained by `Getattr` on
the class reaches `This.eval`'s failing `ctx["this"]` lookup
(`NameError "variável this não existe!"`). -/
theorem C5_counterexample :
    validateProgram progThisUnbound = .ok () ∧
    (evalProgram 20 progThisUnbound).2
      = .error (.nameE "variável this não existe!") := by
  refine ⟨?_, by rfl⟩
  simp [progThisUnbound, validateProgram, validateStmts, validateStmt, validateExpr,
      validateExprs, validateOptExpr, validateMethods, validateFunction,
      blockFirstDupGo, firstReservedParam, firstDupParam, firstDupParamGo,
      firstShadowingVarDef, RESERVED_WORDS, cursorHasClass, cursorHasFunction,
      cursorNearestClassBase]

/-- C5 (amended): the pre-execution validation is sound for the three
scope rules syntactically — a program it accepts contains no `return`
outside a function body, no `this` outside a class, and no `super` whose
nearest enclosing class lacks a base (`stmtsMisuseFree false false false`) —
and dynamically for `return`: evaluating a validated program never surfaces
the `LoxReturn` signal to the host.  The runtime `this`/`super` lookups
remain reachable in validated programs through unbound method extraction
(see the counterexample), so "evaluation never begins" holds only for the
three syntactic misuses. -/
theorem C5_validator_soundness :
    ∀ p : Program, validateProgram p = .ok () →
      stmtsMisuseFree false false false p.stmts = true ∧
      ∀ f : Nat, isRet (evalProgram f p).2 = false := by
  intro p h
  have h1 := validateStmts_sound [] p.stmts h
  refine ⟨h1, ?_⟩
  intro f
  exact (stmtNoRet false false f).2 p.stmts 0 initSt h1

/-- Witness for `C5_validator_soundness` on a concrete validated program
with a `return` inside a function. -/
theorem C5_validator_soundness_witness :
    stmtsMisuseFree false false false progRetInFun.stmts = true ∧
    isRet (evalProgram 10 progRetInFun).2 = false := by
  have hv : validateProgram progRetInFun = .ok () := by
    simp [progRetInFun, validateProgram, validateStmts, validateStmt, validateExpr,
        validateExprs, validateOptExpr, validateMethods, validateFunction,
        blockFirstDupGo, firstReservedParam, firstDupParam, firstDupParamGo,
        firstShadowingVarDef, RESERVED_WORDS, cursorHasClass, cursorHasFunction,
        cursorNearestClassBase]
  exact ⟨(C5_validator_soundness progRetInFun hv).1,
    (C5_validator_soundness progRetInFun hv).2 10⟩

end LoxSpec

